import Mathlib

/-!
Shallow embedding of the room-renovation examples
(`Review-99-Lecture-Snippets/Rust-Builder/src/room.rs` and
`Review-14-Rust-Builder-Pattern/Example-3/src/main.rs`).

Modelling conventions:
* Rust `f64` values are modelled as `ℚ` (the programs only ever add,
  multiply and compare finite decimal constants, all of which are exact
  in `ℚ`).
* A Rust panic (an `unwrap` of `None`, or an out-of-bounds index) is
  modelled by `Option.none` on the result type of the function that
  panics; `some` carries the normal result.
* `Result<T, E>` is modelled by `Except E T`.
* Rust `String`/`&str` are modelled by `String`.
-/

namespace RoomRenovation

/-- Flooring value type: a type name and a unit cost per unit area.
Its struct lives in `flooring.rs`, which is not under `src/`; the field
names `type_name`/`unit_cost` are taken from their uses in `room.rs`. -/
structure Flooring where
  type_name : String
  unit_cost : ℚ
deriving DecidableEq

/-- DimensionSet from `room.rs`: a length and a width. -/
structure DimensionSet where
  length : ℚ
  width : ℚ
deriving DecidableEq

/-- DimensionSet::new. -/
def DimensionSet.new (l w : ℚ) : DimensionSet := ⟨l, w⟩

/-- Default for DimensionSet: 1 × 1. -/
def DimensionSet.dflt : DimensionSet := DimensionSet.new 1 1

/-- Room from `room.rs`: a name, dimensions and flooring. -/
structure Room where
  name : String
  dimensions : DimensionSet
  flooring : Flooring
deriving DecidableEq

/-- Room::area: `self.dimensions.width * self.dimensions.length`. -/
def Room.area (r : Room) : ℚ := r.dimensions.width * r.dimensions.length

/-- Room::flooring_cost: `self.area() * self.flooring.unit_cost`. -/
def Room.flooring_cost (r : Room) : ℚ := r.area * r.flooring.unit_cost

/-- Room::set_flooring: replaces the two flooring fields, keeps the rest. -/
def Room.set_flooring (r : Room) (nme : String) (unit_c : ℚ) : Room :=
  ⟨r.name, r.dimensions, ⟨nme, unit_c⟩⟩

/-- PartialEq for Room: `self.name.eq(&rhs.name) && self.area().eq(&rhs.area())`. -/
def Room.eqR (a rhs : Room) : Bool :=
  (a.name == rhs.name) && decide (a.area = rhs.area)

/-- Three-way comparison on `ℚ`, the model of `f64::partial_cmp` on
finite values (always `Some` away from NaN, which `ℚ` has no model of). -/
def qcmp (a b : ℚ) : Ordering :=
  if a < b then Ordering.lt else if b < a then Ordering.gt else Ordering.eq

/-- Three-way lexicographic comparison on strings, the model of
`String::partial_cmp` (always `Some`). -/
def scmp (a b : String) : Ordering :=
  if a < b then Ordering.lt else if b < a then Ordering.gt else Ordering.eq

/-- PartialOrd for Room: compare areas when the names are equal,
otherwise compare the names. -/
def Room.pcmp (a rhs : Room) : Option Ordering :=
  if a.name == rhs.name then some (qcmp a.area rhs.area)
  else some (scmp a.name rhs.name)

/-- BuildError from `room.rs`: one generic variant with a description. -/
inductive BuildError where
  | GenericError (description : String)
deriving DecidableEq

/-- RoomBuilder from `room.rs`: five optional fields. -/
structure RoomBuilder where
  name : Option String
  length : Option ℚ
  width : Option ℚ
  flooring_name : Option String
  unit_cost : Option ℚ
deriving DecidableEq

/-- RoomBuilder::new: every field `None`. -/
def RoomBuilder.new : RoomBuilder := ⟨none, none, none, none, none⟩

/-- RoomBuilder::with_name: sets only `name`. -/
def RoomBuilder.with_name (b : RoomBuilder) (nme : String) : RoomBuilder :=
  ⟨some nme, b.length, b.width, b.flooring_name, b.unit_cost⟩

/-- RoomBuilder::with_flooring: sets `flooring_name` and `unit_cost` together. -/
def RoomBuilder.with_flooring (b : RoomBuilder) (nme : String) (unit_c : ℚ) :
    RoomBuilder :=
  ⟨b.name, b.length, b.width, some nme, some unit_c⟩

/-- RoomBuilder::with_dimensions: sets `length` and `width` together. -/
def RoomBuilder.with_dimensions (b : RoomBuilder) (l w : ℚ) : RoomBuilder :=
  ⟨b.name, some l, some w, b.flooring_name, b.unit_cost⟩

/-- RoomBuilder::build: returns `Err` when `name` is unset; otherwise it
unwraps the four remaining fields (a panic — modelled by `none` — when
any of them is unset) and returns `Ok` with the assembled room. -/
def RoomBuilder.build (b : RoomBuilder) : Option (Except BuildError Room) :=
  match b.name with
  | none => some (Except.error (BuildError.GenericError "Name can not be blank"))
  | some nm =>
    match b.length, b.width, b.flooring_name, b.unit_cost with
    | some l, some w, some fn, some uc =>
        some (Except.ok ⟨nm, DimensionSet.new l w, ⟨fn, uc⟩⟩)
    | _, _, _, _ => none

/-- The three kinds of `with_*` calls one can make on a `RoomBuilder`. -/
inductive BOp where
  | op_with_name (nme : String)
  | op_with_dimensions (l w : ℚ)
  | op_with_flooring (nme : String) (unit_c : ℚ)
deriving DecidableEq

/-- Apply one `with_*` call to a builder. -/
def applyOp (b : RoomBuilder) : BOp → RoomBuilder
  | BOp.op_with_name nme => b.with_name nme
  | BOp.op_with_dimensions l w => b.with_dimensions l w
  | BOp.op_with_flooring nme c => b.with_flooring nme c

/-- The builder reached from `RoomBuilder::new()` by a sequence of
`with_*` calls. -/
def runOps (ops : List BOp) : RoomBuilder := ops.foldl applyOp RoomBuilder.new

/-- Modelled from the spec: `House` (its `house.rs` is not under `src/`).
Per the spec it owns a name and an ordered sequence of rooms, iterated
in insertion order. -/
structure House where
  name : String
  rooms : List Room
deriving DecidableEq

/-- Modelled from the spec: `HouseBuilder` accumulates an optional name
and a room collection. -/
structure HouseBuilder where
  name : Option String
  rooms : List Room
deriving DecidableEq

/-- Modelled from the spec: HouseBuilder::new. -/
def HouseBuilder.new : HouseBuilder := ⟨none, []⟩

/-- Modelled from the spec: HouseBuilder::with_name. -/
def HouseBuilder.with_name (b : HouseBuilder) (nme : String) : HouseBuilder :=
  ⟨some nme, b.rooms⟩

/-- Modelled from the spec: HouseBuilder::with_rooms. -/
def HouseBuilder.with_rooms (b : HouseBuilder) (rs : List Room) : HouseBuilder :=
  ⟨b.name, rs⟩

/-- Modelled from the spec: HouseBuilder::build always succeeds, with the
default name "Generic" when unset; `main.rs` immediately unwraps the
always-`Ok` result, so the model returns the `House` directly. -/
def HouseBuilder.build (b : HouseBuilder) : House :=
  ⟨b.name.getD "Generic", b.rooms⟩

/-- upgrade_flooring from `main.rs`: clone every room, call
`set_flooring("Stone Bricks", 12.97)` on the clone, collect into a fresh
`HouseBuilder` named "After Stone Bricks" and build. -/
def upgrade_flooring (original : House) : House :=
  ((HouseBuilder.new.with_name "After Stone Bricks").with_rooms
    (original.rooms.map (fun room => room.set_flooring "Stone Bricks" (1297/100)))).build

/-- discount_flooring from `main.rs`: `0.90 * r.flooring_cost()`. -/
def discount_flooring (r : Room) : ℚ := (9/10) * r.flooring_cost

/-- Modelled from the spec: `FlooringBuilder` (its `flooring.rs` is not
under `src/`); it accumulates a type name and a unit cost. -/
structure FlooringBuilder where
  name : Option String
  unit_cost : Option ℚ
deriving DecidableEq

/-- Modelled from the spec: FlooringBuilder::new. -/
def FlooringBuilder.new : FlooringBuilder := ⟨none, none⟩

/-- Modelled from the spec: FlooringBuilder::with_specific_name. -/
def FlooringBuilder.with_specific_name (b : FlooringBuilder) (nme : String) :
    FlooringBuilder :=
  ⟨some nme, b.unit_cost⟩

/-- Modelled from the spec: FlooringBuilder::with_unit_cost. -/
def FlooringBuilder.with_unit_cost (b : FlooringBuilder) (c : ℚ) :
    FlooringBuilder :=
  ⟨b.name, some c⟩

/-- Modelled from the spec: FlooringBuilder::build requires both fields
(`none` models the missing-field error, which `main.rs` unwraps). -/
def FlooringBuilder.build (b : FlooringBuilder) : Option Flooring :=
  match b.name, b.unit_cost with
  | some n, some c => some ⟨n, c⟩
  | _, _ => none

/-- Modelled from the spec: the `room_renovation` crate used by `main.rs`
has a RoomBuilder::with_flooring that takes a built `Flooring` and sets
the flooring name and unit cost together. -/
def RoomBuilder.with_flooring_value (b : RoomBuilder) (fl : Flooring) :
    RoomBuilder :=
  b.with_flooring fl.type_name fl.unit_cost

/-- Split a character list at every character satisfying `p`, keeping
empty groups (the model of the splitting primitive under both
`split(";")` and `split_whitespace()`). -/
def splitOnP (p : Char → Bool) : List Char → List (List Char)
  | [] => [[]]
  | x :: rest =>
    match splitOnP p rest with
    | [] => [[x]]
    | g :: gs => if p x then [] :: g :: gs else (x :: g) :: gs

/-- Model of `str::split_whitespace`: split on whitespace and drop the
empty groups. -/
def split_whitespace_list (cs : List Char) : List String :=
  ((splitOnP Char.isWhitespace cs).filter (fun g => g ≠ [])).map
    (fun g => String.mk g)

/-- Fold a digit list into a natural number. -/
def digitsToNat (cs : List Char) : Nat :=
  cs.foldl (fun a c => 10 * a + (c.toNat - 48)) 0

/-- Model of `str::parse::<f64>` restricted to the plain decimal literals
the program feeds it: an optional sign, then digits with at most one
decimal point; anything else fails with `none`. -/
def parseDecimal (s : String) : Option ℚ :=
  let signAndDigits : ℚ × List Char :=
    match s.toList with
    | '-' :: rest => (-1, rest)
    | '+' :: rest => (1, rest)
    | cs => (1, cs)
  let sign := signAndDigits.1
  let cs := signAndDigits.2
  match splitOnP (fun c => c = '.') cs with
  | [intPart] =>
      if intPart ≠ [] ∧ intPart.all Char.isDigit then
        some (sign * (digitsToNat intPart : ℚ))
      else none
  | [intPart, fracPart] =>
      if (intPart ≠ [] ∨ fracPart ≠ []) ∧ intPart.all Char.isDigit ∧
          fracPart.all Char.isDigit then
        some (sign * ((digitsToNat intPart : ℚ) +
          (digitsToNat fracPart : ℚ) / (10 : ℚ) ^ fracPart.length))
      else none
  | _ => none

/-- The per-token policy in `build_house`: `token.parse().unwrap_or(1_f64)`. -/
def parseOr1 (t : String) : ℚ := (parseDecimal t).getD 1

/-- The body of the per-line closure in `build_house` after tokenisation:
take the first three tokens as length, width and unit cost (each with the
`unwrap_or(1.0)` fallback), join the remaining tokens into the flooring
name, and run the builder chain. Fewer than three tokens is the model of
the `the_rest[0..3]` slice panic. -/
def buildFromParts (nme : String) : List String → Option (Except BuildError Room)
  | t0 :: t1 :: t2 :: rest =>
      match ((FlooringBuilder.new.with_specific_name
          (String.intercalate " " rest)).with_unit_cost (parseOr1 t2)).build with
      | none => none
      | some fl =>
          (((RoomBuilder.new.with_name nme).with_dimensions (parseOr1 t0)
            (parseOr1 t1)).with_flooring_value fl).build
  | _ => none

/-- The per-line closure in `build_house`: split once at the semicolon
(the part before it is the room name, taken verbatim), tokenise the rest
on whitespace, and hand over to `buildFromParts`. A line without a
semicolon is the model of the `line[1]` index panic. -/
def parseRoomLine (line : String) : Option (Except BuildError Room) :=
  match (splitOnP (fun c => c = ';') line.toList).map (fun g => String.mk g) with
  | nme :: restStr :: _ => buildFromParts nme (split_whitespace_list restStr.toList)
  | _ => none

/-- Model of `itertools::MinMaxResult`. -/
inductive MinMaxResult (α : Type) where
  | NoElements
  | OneElement (x : α)
  | MinMax (mn mx : α)
deriving DecidableEq

/-- One update step of the minmax scan: the minimum is replaced only on a
strict decrease of the key (so the first minimum is kept), the maximum is
replaced on a non-strict increase (so the last maximum is kept). -/
def minmaxStep (key : α → ℚ) (p : α × α) (z : α) : α × α :=
  (if key z < key p.1 then z else p.1, if key p.2 ≤ key z then z else p.2)

/-- Model of `itertools::Itertools::minmax_by_key` as used in `main.rs`:
no elements and one element get their own results; with two or more, the
scan keeps the first of equal minima and the last of equal maxima, which
is the documented itertools behaviour realised by its pairwise algorithm
under the total order `OrderedFloat` supplies. -/
def minmax_by_key (key : α → ℚ) : List α → MinMaxResult α
  | [] => MinMaxResult.NoElements
  | [x] => MinMaxResult.OneElement x
  | x :: y :: rest =>
      let init := if key y < key x then (y, x) else (x, y)
      let p := rest.foldl (minmaxStep key) init
      MinMaxResult.MinMax p.1 p.2

/-! Concrete rooms used by the equality/ordering witness: `rm1` and
`rm1'` share the name "A" and the area 6 but differ in their individual
dimensions and in their flooring. -/

/-- A room named "A" with dimensions 2 × 3 and flooring X at unit cost 1. -/
def rm1 : Room := ⟨"A", DimensionSet.new 2 3, ⟨"X", 1⟩⟩

/-- A room named "A" with dimensions 6 × 1 and flooring Y at unit cost 7. -/
def rm1' : Room := ⟨"A", DimensionSet.new 6 1, ⟨"Y", 7⟩⟩

/-- A room named "A" with dimensions 1 × 6 and flooring Z at unit cost 2. -/
def rm2 : Room := ⟨"A", DimensionSet.new 1 6, ⟨"Z", 2⟩⟩

/-- C1: Room equality holds exactly when the names and the areas agree,
and the three-way comparison is determined by the pair (name, area)
alone — replacing either argument by any room with the same name and
area, whatever its flooring and individual dimensions, leaves the
comparison result unchanged. -/
theorem room_eq_and_ord_by_name_area_only (r1 r2 s1 s2 : Room)
    (h1n : s1.name = r1.name) (h1a : s1.area = r1.area)
    (h2n : s2.name = r2.name) (h2a : s2.area = r2.area) :
    (Room.eqR r1 r2 = true ↔ (r1.name = r2.name ∧ r1.area = r2.area)) ∧
    Room.pcmp s1 s2 = Room.pcmp r1 r2 := by
  constructor
  · simp [Room.eqR]
  · simp only [Room.pcmp, h1n, h1a, h2n, h2a]

/-- Witness for C1 at rooms that share name and area but have different
dimensions and flooring. -/
theorem room_eq_and_ord_by_name_area_only_witness :
    (rm1'.name = rm1.name ∧ rm1'.area = rm1.area ∧
      rm2.name = rm2.name ∧ rm2.area = rm2.area) ∧
    ((Room.eqR rm1 rm2 = true ↔ (rm1.name = rm2.name ∧ rm1.area = rm2.area)) ∧
      Room.pcmp rm1' rm2 = Room.pcmp rm1 rm2) :=
  ⟨⟨rfl, by norm_num [rm1, rm1', Room.area, DimensionSet.new], rfl, rfl⟩,
    room_eq_and_ord_by_name_area_only rm1 rm2 rm1' rm2 rfl
      (by norm_num [rm1, rm1', Room.area, DimensionSet.new]) rfl rfl⟩

/-- C2: the full builder chain always succeeds and produces a room whose
area is length times width and whose flooring cost is area times unit
cost. -/
theorem builder_chain_builds_room (nme flooring_nme : String)
    (length width unit_cost : ℚ) :
    ∃ r : Room,
      (((RoomBuilder.new.with_name nme).with_dimensions length
          width).with_flooring flooring_nme unit_cost).build
        = some (Except.ok r) ∧
      r.area = length * width ∧ r.flooring_cost = r.area * unit_cost := by
  refine ⟨⟨nme, DimensionSet.new length width, ⟨flooring_nme, unit_cost⟩⟩,
    rfl, ?_, rfl⟩
  exact mul_comm width length

/-- C3: build on a builder whose name is unset returns the error value
with description "Name can not be blank" (never a room, never a panic). -/
theorem build_fails_when_name_unset (b : RoomBuilder) (h : b.name = none) :
    b.build
      = some (Except.error (BuildError.GenericError "Name can not be blank")) := by
  simp [RoomBuilder.build, h]

/-- Witness for C3: the fresh builder has no name and fails as stated. -/
theorem build_fails_when_name_unset_witness :
    RoomBuilder.new.name = none ∧
    RoomBuilder.new.build
      = some (Except.error (BuildError.GenericError "Name can not be blank")) :=
  ⟨rfl, build_fails_when_name_unset RoomBuilder.new rfl⟩

/-- C4: when the name is set but any of the four other fields is unset,
build panics (modelled by `none`) instead of returning a structured
error; and conversely the only way build returns an `Err` is an unset
name. -/
theorem build_fatal_unless_only_name_missing (b : RoomBuilder) :
    (∀ nm, b.name = some nm →
      (b.length = none ∨ b.width = none ∨ b.flooring_name = none ∨
        b.unit_cost = none) →
      b.build = none) ∧
    (∀ e, b.build = some (Except.error e) → b.name = none) := by
  obtain ⟨n, l, w, fn, uc⟩ := b
  constructor
  · intro nm hn hmiss
    cases hn
    cases l <;> cases w <;> cases fn <;> cases uc <;>
      simp_all [RoomBuilder.build]
  · intro e he
    cases n with
    | none => rfl
    | some nm =>
        cases l <;> cases w <;> cases fn <;> cases uc <;>
          simp [RoomBuilder.build] at he

/-- Witness for C4: a builder with only the name set panics in build. -/
theorem build_fatal_unless_only_name_missing_witness :
    (RoomBuilder.new.with_name "A").build = none :=
  (build_fatal_unless_only_name_missing (RoomBuilder.new.with_name "A")).1
    "A" rfl (Or.inl rfl)

/-- C9: set_flooring changes exactly the flooring fields: the name, the
dimensions and hence the area are unchanged, and the flooring becomes
the given pair. -/
theorem set_flooring_frame (r : Room) (nme : String) (c : ℚ) :
    (r.set_flooring nme c).name = r.name ∧
    (r.set_flooring nme c).dimensions = r.dimensions ∧
    (r.set_flooring nme c).area = r.area ∧
    (r.set_flooring nme c).flooring = ⟨nme, c⟩ :=
  ⟨rfl, rfl, rfl, rfl⟩

/-- The paired-fields invariant of a builder: length is set exactly when
width is, and flooring name exactly when unit cost is. -/
def PairInv (b : RoomBuilder) : Prop :=
  b.length.isSome = b.width.isSome ∧
  b.flooring_name.isSome = b.unit_cost.isSome

theorem pairInv_applyOp {b : RoomBuilder} (h : PairInv b) (op : BOp) :
    PairInv (applyOp b op) := by
  cases op <;>
    simp_all [PairInv, applyOp, RoomBuilder.with_name,
      RoomBuilder.with_dimensions, RoomBuilder.with_flooring]

theorem pairInv_foldl (ops : List BOp) :
    ∀ b, PairInv b → PairInv (ops.foldl applyOp b) := by
  induction ops with
  | nil => exact fun b h => h
  | cons op ops ih => exact fun b h => ih _ (pairInv_applyOp h op)

/-- Once a field of the builder is set, or some operation in the list
sets it, it is set after running the list: no operation ever clears a
field. -/
theorem run_sets_field {β : Type} (f : RoomBuilder → Option β)
    (trigger : BOp → Prop)
    (hpres : ∀ b op, (f b).isSome = true → (f (applyOp b op)).isSome = true)
    (hset : ∀ b op, trigger op → (f (applyOp b op)).isSome = true) :
    ∀ (ops : List BOp) (b : RoomBuilder),
      ((∃ op ∈ ops, trigger op) ∨ (f b).isSome = true) →
      (f (ops.foldl applyOp b)).isSome = true := by
  intro ops
  induction ops with
  | nil =>
      rintro b (⟨op, hop, _⟩ | h)
      · exact absurd hop (List.not_mem_nil _)
      · exact h
  | cons o os ih =>
      rintro b (⟨op, hop, htr⟩ | h)
      · rcases List.mem_cons.mp hop with rfl | hmem
        · exact ih _ (Or.inr (hset b _ htr))
        · exact ih _ (Or.inl ⟨op, hmem, htr⟩)
      · exact ih _ (Or.inr (hpres b o h))

theorem run_name_isSome (ops : List BOp)
    (hs : ∃ s, BOp.op_with_name s ∈ ops) :
    (runOps ops).name.isSome = true := by
  obtain ⟨s, hs⟩ := hs
  exact run_sets_field (fun b => b.name)
    (fun op => ∃ s, op = BOp.op_with_name s)
    (by
      intro b op h
      cases op <;>
        simp_all [applyOp, RoomBuilder.with_name, RoomBuilder.with_dimensions,
          RoomBuilder.with_flooring])
    (by rintro b op ⟨s, rfl⟩; rfl)
    ops RoomBuilder.new (Or.inl ⟨_, hs, s, rfl⟩)

theorem run_dims_isSome (ops : List BOp)
    (hs : ∃ l w, BOp.op_with_dimensions l w ∈ ops) :
    (runOps ops).length.isSome = true ∧ (runOps ops).width.isSome = true := by
  obtain ⟨l, w, hs⟩ := hs
  constructor
  · exact run_sets_field (fun b => b.length)
      (fun op => ∃ l w, op = BOp.op_with_dimensions l w)
      (by
        intro b op h
        cases op <;>
          simp_all [applyOp, RoomBuilder.with_name, RoomBuilder.with_dimensions,
            RoomBuilder.with_flooring])
      (by rintro b op ⟨l, w, rfl⟩; rfl)
      ops RoomBuilder.new (Or.inl ⟨_, hs, l, w, rfl⟩)
  · exact run_sets_field (fun b => b.width)
      (fun op => ∃ l w, op = BOp.op_with_dimensions l w)
      (by
        intro b op h
        cases op <;>
          simp_all [applyOp, RoomBuilder.with_name, RoomBuilder.with_dimensions,
            RoomBuilder.with_flooring])
      (by rintro b op ⟨l, w, rfl⟩; rfl)
      ops RoomBuilder.new (Or.inl ⟨_, hs, l, w, rfl⟩)

theorem run_floor_isSome (ops : List BOp)
    (hs : ∃ fn c, BOp.op_with_flooring fn c ∈ ops) :
    (runOps ops).flooring_name.isSome = true ∧
    (runOps ops).unit_cost.isSome = true := by
  obtain ⟨fn, c, hs⟩ := hs
  constructor
  · exact run_sets_field (fun b => b.flooring_name)
      (fun op => ∃ fn c, op = BOp.op_with_flooring fn c)
      (by
        intro b op h
        cases op <;>
          simp_all [applyOp, RoomBuilder.with_name, RoomBuilder.with_dimensions,
            RoomBuilder.with_flooring])
      (by rintro b op ⟨fn, c, rfl⟩; rfl)
      ops RoomBuilder.new (Or.inl ⟨_, hs, fn, c, rfl⟩)
  · exact run_sets_field (fun b => b.unit_cost)
      (fun op => ∃ fn c, op = BOp.op_with_flooring fn c)
      (by
        intro b op h
        cases op <;>
          simp_all [applyOp, RoomBuilder.with_name, RoomBuilder.with_dimensions,
            RoomBuilder.with_flooring])
      (by rintro b op ⟨fn, c, rfl⟩; rfl)
      ops RoomBuilder.new (Or.inl ⟨_, hs, fn, c, rfl⟩)

theorem build_ok_of_isSome {b : RoomBuilder}
    (hn : b.name.isSome = true) (hl : b.length.isSome = true)
    (hw : b.width.isSome = true) (hf : b.flooring_name.isSome = true)
    (hu : b.unit_cost.isSome = true) :
    ∃ r, b.build = some (Except.ok r) := by
  obtain ⟨n, l, w, fn, uc⟩ := b
  rw [Option.isSome_iff_exists] at hn hl hw hf hu
  obtain ⟨nv, rfl⟩ := hn
  obtain ⟨lv, rfl⟩ := hl
  obtain ⟨wv, rfl⟩ := hw
  obtain ⟨fv, rfl⟩ := hf
  obtain ⟨uv, rfl⟩ := hu
  exact ⟨_, rfl⟩

/-- C10: every builder reachable from new by with_name, with_dimensions
and with_flooring calls has its length/width fields set together and its
flooring-name/unit-cost fields set together; and when each of the three
calls occurs at least once, build succeeds with a room, reaching no
fatal unwrap. -/
theorem builder_pair_invariant_and_success (ops : List BOp) :
    ((runOps ops).length.isSome = (runOps ops).width.isSome ∧
      (runOps ops).flooring_name.isSome = (runOps ops).unit_cost.isSome) ∧
    ((∃ s, BOp.op_with_name s ∈ ops) →
      (∃ l w, BOp.op_with_dimensions l w ∈ ops) →
      (∃ fn c, BOp.op_with_flooring fn c ∈ ops) →
      ∃ r, (runOps ops).build = some (Except.ok r)) := by
  constructor
  · exact pairInv_foldl ops RoomBuilder.new ⟨rfl, rfl⟩
  · intro hn hd hf
    obtain ⟨hl, hw⟩ := run_dims_isSome ops hd
    obtain ⟨hfn, hu⟩ := run_floor_isSome ops hf
    exact build_ok_of_isSome (run_name_isSome ops hn) hl hw hfn hu

/-- Witness for C10 at a concrete call sequence containing all three
kinds of calls. -/
theorem builder_pair_invariant_and_success_witness :
    ∃ r, (runOps [BOp.op_with_name "A", BOp.op_with_dimensions 2 3,
      BOp.op_with_flooring "Oak" 5]).build = some (Except.ok r) :=
  (builder_pair_invariant_and_success _).2
    ⟨"A", by simp⟩ ⟨2, 3, by simp⟩ ⟨"Oak", 5, by simp⟩

/-- List of definitions that make up the house pipeline, bundled for
simp calls. -/
theorem upgrade_flooring_rooms (h : House) :
    (upgrade_flooring h).rooms
      = h.rooms.map (fun room => room.set_flooring "Stone Bricks" (1297/100)) :=
  rfl

/-- C5 counterexample: for a house holding one zero-area room whose unit
cost 5 differs from 12.97, the upgraded room has the same flooring cost
as the original (both are 0), refuting the claim that the cost differs
whenever the original unit cost differs from 12.97. -/
theorem upgrade_flooring_zero_area_counterexample :
    ((upgrade_flooring ⟨"H", [⟨"R", DimensionSet.new 0 1, ⟨"Oak", 5⟩⟩]⟩).rooms.map
        Room.flooring_cost
      = [Room.flooring_cost ⟨"R", DimensionSet.new 0 1, ⟨"Oak", 5⟩⟩]) ∧
    ((5 : ℚ) ≠ 1297/100) := by
  constructor
  · norm_num [upgrade_flooring_rooms, Room.set_flooring, Room.flooring_cost,
      Room.area, DimensionSet.new]
  · norm_num

/-- C5 (amended): upgrading the flooring keeps the room count, keeps each
room equal (per Room eq: same name, same area) to the original, replaces
every flooring by ("Stone Bricks", 12.97), and changes the flooring cost
of every room of nonzero area whose original unit cost differs from
12.97 (zero-area rooms keep cost 0 either way). The original house is a
value the pure function never alters. -/
theorem upgrade_flooring_spec (h : House) :
    (upgrade_flooring h).rooms.length = h.rooms.length ∧
    (∀ i (hi : i < h.rooms.length) (hi2 : i < (upgrade_flooring h).rooms.length),
      Room.eqR (h.rooms.get ⟨i, hi⟩) ((upgrade_flooring h).rooms.get ⟨i, hi2⟩)
          = true ∧
      ((upgrade_flooring h).rooms.get ⟨i, hi2⟩).flooring
          = ⟨"Stone Bricks", 1297/100⟩ ∧
      ((h.rooms.get ⟨i, hi⟩).area ≠ 0 →
        (h.rooms.get ⟨i, hi⟩).flooring.unit_cost ≠ 1297/100 →
        ((upgrade_flooring h).rooms.get ⟨i, hi2⟩).flooring_cost
          ≠ (h.rooms.get ⟨i, hi⟩).flooring_cost)) := by
  constructor
  · simp [upgrade_flooring_rooms]
  · intro i hi hi2
    have hg : (upgrade_flooring h).rooms.get ⟨i, hi2⟩
        = (h.rooms.get ⟨i, hi⟩).set_flooring "Stone Bricks" (1297/100) := by
      simp [upgrade_flooring_rooms, List.get_eq_getElem, List.getElem_map]
    rw [hg]
    refine ⟨?_, rfl, ?_⟩
    · simp [Room.eqR, Room.set_flooring, Room.area]
    · intro ha hc heq
      simp only [Room.flooring_cost, Room.set_flooring, Room.area] at heq
      exact hc (mul_left_cancel₀ ha heq).symm

/-- Concrete one-room house for the C5 witness: area 6, unit cost 4. -/
def hW : House := ⟨"H", [⟨"K", DimensionSet.new 2 3, ⟨"Tile", 4⟩⟩]⟩

theorem hW_len : 0 < hW.rooms.length := by norm_num [hW]

theorem hW_len2 : 0 < (upgrade_flooring hW).rooms.length := by
  norm_num [hW, upgrade_flooring_rooms]

/-- Witness for C5 (amended) at a one-room house of nonzero area and a
unit cost different from 12.97. -/
theorem upgrade_flooring_spec_witness :
    ((hW.rooms.get ⟨0, hW_len⟩).area ≠ 0 ∧
      (hW.rooms.get ⟨0, hW_len⟩).flooring.unit_cost ≠ 1297/100) ∧
    ((upgrade_flooring hW).rooms.get ⟨0, hW_len2⟩).flooring_cost
      ≠ (hW.rooms.get ⟨0, hW_len⟩).flooring_cost :=
  ⟨⟨by norm_num [hW, Room.area, DimensionSet.new],
    by norm_num [hW]⟩,
    ((upgrade_flooring_spec hW).2 0 hW_len hW_len2).2.2
      (by norm_num [hW, Room.area, DimensionSet.new])
      (by norm_num [hW])⟩

/-- mn is the first-encountered minimum of l under key: everything before
it is strictly larger, everything after it at least as large. -/
def IsFirstMin (key : α → ℚ) (l : List α) (mn : α) : Prop :=
  ∃ l1 l2, l = l1 ++ mn :: l2 ∧ (∀ z ∈ l1, key mn < key z) ∧
    (∀ z ∈ l2, key mn ≤ key z)

/-- mx is the last-encountered maximum of l under key: everything before
it is at most as large, everything after it strictly smaller. -/
def IsLastMax (key : α → ℚ) (l : List α) (mx : α) : Prop :=
  ∃ l1 l2, l = l1 ++ mx :: l2 ∧ (∀ z ∈ l1, key z ≤ key mx) ∧
    (∀ z ∈ l2, key z < key mx)

theorem isFirstMin_le {key : α → ℚ} {l : List α} {mn : α}
    (h : IsFirstMin key l mn) : ∀ z ∈ l, key mn ≤ key z := by
  obtain ⟨l1, l2, rfl, h1, h2⟩ := h
  intro z hz
  rcases List.mem_append.mp hz with hz | hz
  · exact (h1 z hz).le
  · rcases List.mem_cons.mp hz with rfl | hz
    · exact le_refl _
    · exact h2 z hz

theorem isLastMax_ge {key : α → ℚ} {l : List α} {mx : α}
    (h : IsLastMax key l mx) : ∀ z ∈ l, key z ≤ key mx := by
  obtain ⟨l1, l2, rfl, h1, h2⟩ := h
  intro z hz
  rcases List.mem_append.mp hz with hz | hz
  · exact h1 z hz
  · rcases List.mem_cons.mp hz with rfl | hz
    · exact le_refl _
    · exact (h2 z hz).le

theorem isFirstMin_snoc {key : α → ℚ} {l : List α} {mn : α}
    (h : IsFirstMin key l mn) (z : α) :
    IsFirstMin key (l ++ [z]) (if key z < key mn then z else mn) := by
  obtain ⟨l1, l2, rfl, h1, h2⟩ := h
  by_cases hz : key z < key mn
  · rw [if_pos hz]
    refine ⟨l1 ++ mn :: l2, [], by simp, ?_, by simp⟩
    intro w hw
    rcases List.mem_append.mp hw with hw | hw
    · exact hz.trans (h1 w hw)
    · rcases List.mem_cons.mp hw with rfl | hw
      · exact hz
      · exact hz.trans_le (h2 w hw)
  · rw [if_neg hz]
    refine ⟨l1, l2 ++ [z], by simp, h1, ?_⟩
    intro w hw
    rcases List.mem_append.mp hw with hw | hw
    · exact h2 w hw
    · rw [List.mem_singleton.mp hw]
      exact not_lt.mp hz

theorem isLastMax_snoc {key : α → ℚ} {l : List α} {mx : α}
    (h : IsLastMax key l mx) (z : α) :
    IsLastMax key (l ++ [z]) (if key mx ≤ key z then z else mx) := by
  obtain ⟨l1, l2, rfl, h1, h2⟩ := h
  by_cases hz : key mx ≤ key z
  · rw [if_pos hz]
    refine ⟨l1 ++ mx :: l2, [], by simp, ?_, by simp⟩
    intro w hw
    rcases List.mem_append.mp hw with hw | hw
    · exact (h1 w hw).trans hz
    · rcases List.mem_cons.mp hw with rfl | hw
      · exact hz
      · exact (h2 w hw).le.trans hz
  · rw [if_neg hz]
    refine ⟨l1, l2 ++ [z], by simp, h1, ?_⟩
    intro w hw
    rcases List.mem_append.mp hw with hw | hw
    · exact h2 w hw
    · rw [List.mem_singleton.mp hw]
      exact not_le.mp hz

theorem foldl_minmax_inv (key : α → ℚ) :
    ∀ (rest l : List α) (p : α × α),
      IsFirstMin key l p.1 → IsLastMax key l p.2 →
      IsFirstMin key (l ++ rest) ((rest.foldl (minmaxStep key) p)).1 ∧
      IsLastMax key (l ++ rest) ((rest.foldl (minmaxStep key) p)).2 := by
  intro rest
  induction rest with
  | nil =>
      intro l p h1 h2
      simpa using ⟨h1, h2⟩
  | cons z rest ih =>
      intro l p h1 h2
      have hmain := ih (l ++ [z]) (minmaxStep key p z)
        (isFirstMin_snoc h1 z) (isLastMax_snoc h2 z)
      simpa [List.append_assoc] using hmain

theorem minmax_init (key : α → ℚ) (x y : α) :
    IsFirstMin key [x, y] (if key y < key x then (y, x) else (x, y)).1 ∧
    IsLastMax key [x, y] (if key y < key x then (y, x) else (x, y)).2 := by
  by_cases hxy : key y < key x
  · simp only [if_pos hxy]
    constructor
    · exact ⟨[x], [], rfl, by simpa using hxy, by simp⟩
    · exact ⟨[], [y], rfl, by simp, by simpa using hxy⟩
  · simp only [if_neg hxy]
    constructor
    · exact ⟨[], [y], rfl, by simp, by simpa using not_lt.mp hxy⟩
    · exact ⟨[x], [], rfl, by simpa using not_lt.mp hxy, by simp⟩

/-- C6 counterexample: over two elements carrying the same key, the scan
keeps the later element as the maximum, so the claim that ties at the
maximum resolve to the first-encountered element fails (the reported
pair is the first minimum but the last maximum). -/
theorem minmax_last_max_tie_counterexample :
    minmax_by_key Prod.snd [((0 : ℕ), (5 : ℚ)), (1, 5)]
      = MinMaxResult.MinMax (0, 5) (1, 5) ∧
    ((1, 5) : ℕ × ℚ) ≠ (0, 5) := by
  constructor
  · norm_num [minmax_by_key, minmaxStep]
  · simp

/-- C6 (amended): when the minmax scan returns a MinMax pair, the first
component carries the smallest key and the second the largest; ties at
the minimum resolve to the first-encountered element, ties at the
maximum to the last-encountered element. -/
theorem minmax_by_key_spec (key : α → ℚ) (l : List α) (mn mx : α)
    (h : minmax_by_key key l = MinMaxResult.MinMax mn mx) :
    (∀ z ∈ l, key mn ≤ key z ∧ key z ≤ key mx) ∧
    IsFirstMin key l mn ∧ IsLastMax key l mx := by
  cases l with
  | nil => simp [minmax_by_key] at h
  | cons x t =>
      cases t with
      | nil => simp [minmax_by_key] at h
      | cons y rest =>
          have hinit := minmax_init key x y
          have hmain := foldl_minmax_inv key rest [x, y]
            (if key y < key x then (y, x) else (x, y)) hinit.1 hinit.2
          simp only [minmax_by_key, MinMaxResult.MinMax.injEq] at h
          obtain ⟨rfl, rfl⟩ := h
          have hl : ([x, y] : List α) ++ rest = x :: y :: rest := rfl
          rw [hl] at hmain
          exact ⟨fun z hz => ⟨isFirstMin_le hmain.1 z hz,
            isLastMax_ge hmain.2 z hz⟩, hmain.1, hmain.2⟩

/-- Witness for C6 (amended) at a concrete three-element list. -/
theorem minmax_by_key_spec_witness :
    minmax_by_key (id : ℚ → ℚ) [3, 1, 2] = MinMaxResult.MinMax 1 3 ∧
    ((∀ z ∈ [(3 : ℚ), 1, 2], id 1 ≤ id z ∧ id z ≤ id 3) ∧
      IsFirstMin id [(3 : ℚ), 1, 2] 1 ∧ IsLastMax id [(3 : ℚ), 1, 2] 3) :=
  ⟨by norm_num [minmax_by_key, minmaxStep],
    minmax_by_key_spec id [3, 1, 2] 1 3
      (by norm_num [minmax_by_key, minmaxStep])⟩

/-- C7: with at least three tokens after the semicolon the room is
always constructed — each of the first three tokens is used as its
parsed value when parsing succeeds and as the default 1.0 when it fails,
and no parse error is raised or propagated. -/
theorem parse_tokens_silent_fallback (nme t0 t1 t2 : String)
    (rest : List String) :
    buildFromParts nme (t0 :: t1 :: t2 :: rest)
      = some (Except.ok ⟨nme, DimensionSet.new (parseOr1 t0) (parseOr1 t1),
          ⟨String.intercalate " " rest, parseOr1 t2⟩⟩) ∧
    (∀ t : String, parseDecimal t = none → parseOr1 t = 1) := by
  constructor
  · rfl
  · intro t ht
    simp [parseOr1, ht]

/-- Witness for C7 at a token that fails to parse: the room is still
constructed and the failing token became 1. -/
theorem parse_tokens_silent_fallback_witness :
    parseDecimal "abc" = none ∧
    buildFromParts "Den" ["abc", "4", "2.5", "Oak", "Wood"]
      = some (Except.ok ⟨"Den",
          DimensionSet.new (parseOr1 "abc") (parseOr1 "4"),
          ⟨String.intercalate " " ["Oak", "Wood"], parseOr1 "2.5"⟩⟩) ∧
    parseOr1 "abc" = 1 :=
  ⟨rfl,
    (parse_tokens_silent_fallback "Den" "abc" "4" "2.5" ["Oak", "Wood"]).1,
    (parse_tokens_silent_fallback "Den" "abc" "4" "2.5" ["Oak", "Wood"]).2
      "abc" rfl⟩

/-- C8: the two sample lines construct rooms with area 32, flooring cost
62.4 and discounted cost 56.16, and area 240, flooring cost 928.8 and
discounted cost 835.92 respectively. -/
theorem end_to_end_sample_lines :
    (∃ r : Room, parseRoomLine "Laundry Room; 8 4 1.95 Laminate"
        = some (Except.ok r) ∧
      r.area = 32 ∧ r.flooring_cost = 62.4 ∧ discount_flooring r = 56.16) ∧
    (∃ r : Room, parseRoomLine "Kitchen; 20 12 3.87 Tile"
        = some (Except.ok r) ∧
      r.area = 240 ∧ r.flooring_cost = 928.8 ∧
        discount_flooring r = 835.92) := by
  have h8 : parseOr1 "8" = 8 := by
    rw [show parseOr1 "8" = 1 * ((8 : Nat) : ℚ) from rfl]
    norm_num
  have h4 : parseOr1 "4" = 4 := by
    rw [show parseOr1 "4" = 1 * ((4 : Nat) : ℚ) from rfl]
    norm_num
  have h195 : parseOr1 "1.95" = 39/20 := by
    rw [show parseOr1 "1.95"
      = 1 * (((1 : Nat) : ℚ) + ((95 : Nat) : ℚ) / (10 : ℚ) ^ (2 : Nat)) from rfl]
    norm_num
  have h20 : parseOr1 "20" = 20 := by
    rw [show parseOr1 "20" = 1 * ((20 : Nat) : ℚ) from rfl]
    norm_num
  have h12 : parseOr1 "12" = 12 := by
    rw [show parseOr1 "12" = 1 * ((12 : Nat) : ℚ) from rfl]
    norm_num
  have h387 : parseOr1 "3.87" = 387/100 := by
    rw [show parseOr1 "3.87"
      = 1 * (((3 : Nat) : ℚ) + ((87 : Nat) : ℚ) / (10 : ℚ) ^ (2 : Nat)) from rfl]
    norm_num
  constructor
  · refine ⟨⟨"Laundry Room", DimensionSet.new (parseOr1 "8") (parseOr1 "4"),
      ⟨"Laminate", parseOr1 "1.95"⟩⟩, rfl, ?_, ?_, ?_⟩ <;>
      norm_num [Room.area, Room.flooring_cost, discount_flooring,
        DimensionSet.new, h8, h4, h195]
  · refine ⟨⟨"Kitchen", DimensionSet.new (parseOr1 "20") (parseOr1 "12"),
      ⟨"Tile", parseOr1 "3.87"⟩⟩, rfl, ?_, ?_, ?_⟩ <;>
      norm_num [Room.area, Room.flooring_cost, discount_flooring,
        DimensionSet.new, h20, h12, h387]

end RoomRenovation
